import Mathlib

/-!
Verification development for the rslox interpreter.

The repository has two backends sharing one surface language:
a tree-walking evaluator (crate `tree_walking`: scanner, parser,
resolver, environment, interpreter) and a bytecode compiler with a
stack VM (crate `vm`: a Pratt parser emitting `Chunk`s, and `VM`).

This file is a shallow embedding of those components, translated
definition by definition from the Rust source.  Machine floats
(`f64`) are modelled by the exact fractions `NumV` below: every
numeric literal and every arithmetic step appearing in the theorems
of this file is exactly representable, so `f64` and `NumV` agree on
them.  Shared mutable environments (`Rc<RefCell<Environment>>`) are
modelled by a store of frames addressed by index.  Recursive
procedures carry an explicit fuel argument; fuel exhaustion is a
distinguished error that never occurs in the concrete runs below.
-/

/-- Exact-fraction model of Rust `f64` values: numerator over a
positive power-free denominator, compared and combined by exact
rational arithmetic.  All numbers handled by the theorems in this
file are integers, on which `f64` arithmetic is exact. -/
structure NumV where
  num : Int
  den : Nat
deriving DecidableEq, Repr

/-- Build an integral number (denominator 1). -/
def NumV.ofInt (n : Int) : NumV := ⟨n, 1⟩

/-- Exact model of `f64` addition. -/
def NumV.add (a b : NumV) : NumV := ⟨a.num * b.den + b.num * a.den, a.den * b.den⟩

/-- Exact model of `f64` subtraction. -/
def NumV.sub (a b : NumV) : NumV := ⟨a.num * b.den - b.num * a.den, a.den * b.den⟩

/-- Exact model of `f64` multiplication. -/
def NumV.mul (a b : NumV) : NumV := ⟨a.num * b.num, a.den * b.den⟩

/-- Exact model of `f64` division (for the nonzero divisors that occur here). -/
def NumV.div (a b : NumV) : NumV :=
  if b.num < 0 then ⟨-(a.num * b.den), a.den * b.num.natAbs⟩
  else ⟨a.num * b.den, a.den * b.num.natAbs⟩

/-- Exact model of `f64` negation. -/
def NumV.neg (a : NumV) : NumV := ⟨-a.num, a.den⟩

/-- Exact model of `f64` equality (cross multiplication). -/
def NumV.beq (a b : NumV) : Bool := a.num * b.den == b.num * a.den

/-- Exact model of `f64` strict less-than. -/
def NumV.blt (a b : NumV) : Bool := a.num * b.den < b.num * a.den

/-- Exact model of `f64` less-or-equal. -/
def NumV.ble (a b : NumV) : Bool := a.num * b.den ≤ b.num * a.den

/-- Model of Rust's `f64::to_string`, restricted to the integral
values printed by the programs in this file (`1_f64.to_string()` is
`"1"`, matching `toString (1 : Int)`). -/
def NumV.display (a : NumV) : String :=
  if a.den == 1 then toString a.num
  else toString a.num ++ "/" ++ toString a.den

namespace TreeWalking

/-- Token kinds, from `tree_walking/src/scanner.rs` (`enum TokenType`).
The misspelling `Eqal` for the single `=` is the source's. -/
inductive TokenType where
  | LeftParen | RightParen | LeftBrace | RightBrace
  | Comma | Dot | Minus | Plus | Semicolon | Slash | Star | Colon | Question
  | Bang | BangEqual | Eqal | EqualEqual
  | Greater | GreaterEqual | Less | LessEqual
  | Identifier (value : String)
  | Number (value : NumV)
  | String (value : String)
  | And | Class | Else | False | Fun | For | If | Nil | Or
  | Print | Return | Super | This | True | Var | While
  | Eof
deriving DecidableEq, Repr

/-- A scanned token: kind, lexeme and 1-based source line
(`struct Token` in `scanner.rs`). -/
structure Token where
  kind : TokenType
  lexeme : String
  line : Nat
deriving DecidableEq, Repr

/-- Keyword table of `Scanner::next_token` (the identifier branch). -/
def keyword_kind (value : String) : TokenType :=
  match value with
  | "if" => .If
  | "else" => .Else
  | "true" => .True
  | "false" => .False
  | "nil" => .Nil
  | "while" => .While
  | "for" => .For
  | "and" => .And
  | "or" => .Or
  | "fun" => .Fun
  | "return" => .Return
  | "class" => .Class
  | "this" => .This
  | "super" => .Super
  | "var" => .Var
  | "print" => .Print
  | _ => .Identifier value

/-- Value of a numeric literal: integer digits and (possibly empty)
fractional digits.  Models `value.parse::<f64>()`, which is exact on
the literals occurring in this file; the `Err` branch of the Rust
code is unreachable for digit strings and is not modelled. -/
def number_value (intPart fracPart : List Char) : NumV :=
  let ip : Nat := intPart.foldl (fun acc c => acc * 10 + (c.toNat - '0'.toNat)) 0
  let fp : Nat := fracPart.foldl (fun acc c => acc * 10 + (c.toNat - '0'.toNat)) 0
  ⟨ip * 10 ^ fracPart.length + fp, 10 ^ fracPart.length⟩

/-- One step of `Scanner::next_token`: consume input until a token is
produced, or report the final line number when the input is
exhausted (the `None` of the iterator before `Eof` is emitted).
The fuel bounds the skip loop (whitespace, comments, unrecognized
characters); `src.length + 1` is always enough. -/
def next_token : Nat → List Char → Nat → (Token × List Char × Nat) ⊕ Nat
  | 0, _, line => .inr line
  | _, [], line => .inr line
  | fuel + 1, c :: cs, line =>
    match c with
    | '(' => .inl (⟨.LeftParen, c.toString, line⟩, cs, line)
    | ')' => .inl (⟨.RightParen, c.toString, line⟩, cs, line)
    | '{' => .inl (⟨.LeftBrace, c.toString, line⟩, cs, line)
    | '}' => .inl (⟨.RightBrace, c.toString, line⟩, cs, line)
    | ',' => .inl (⟨.Comma, c.toString, line⟩, cs, line)
    | '.' => .inl (⟨.Dot, c.toString, line⟩, cs, line)
    | '-' => .inl (⟨.Minus, c.toString, line⟩, cs, line)
    | '+' => .inl (⟨.Plus, c.toString, line⟩, cs, line)
    | ';' => .inl (⟨.Semicolon, c.toString, line⟩, cs, line)
    | '*' => .inl (⟨.Star, c.toString, line⟩, cs, line)
    | '?' => .inl (⟨.Question, c.toString, line⟩, cs, line)
    | ':' => .inl (⟨.Colon, c.toString, line⟩, cs, line)
    | '!' =>
      if cs.head? = some '=' then .inl (⟨.BangEqual, c.toString, line⟩, cs.tail, line)
      else .inl (⟨.Bang, c.toString, line⟩, cs, line)
    | '=' =>
      if cs.head? = some '=' then .inl (⟨.EqualEqual, c.toString, line⟩, cs.tail, line)
      else .inl (⟨.Eqal, c.toString, line⟩, cs, line)
    | '<' =>
      if cs.head? = some '=' then .inl (⟨.LessEqual, c.toString, line⟩, cs.tail, line)
      else .inl (⟨.Less, c.toString, line⟩, cs, line)
    | '>' =>
      if cs.head? = some '=' then .inl (⟨.GreaterEqual, c.toString, line⟩, cs.tail, line)
      else .inl (⟨.Greater, c.toString, line⟩, cs, line)
    | '/' =>
      if cs.head? = some '/' then
        next_token fuel (cs.dropWhile (· ≠ '\n')) line
      else .inl (⟨.Slash, c.toString, line⟩, cs, line)
    | ' ' => next_token fuel cs line
    | '\r' => next_token fuel cs line
    | '\t' => next_token fuel cs line
    | '\n' => next_token fuel cs (line + 1)
    | '"' =>
      let value := cs.takeWhile (· ≠ '"')
      let rest := (cs.dropWhile (· ≠ '"')).drop 1
      .inl (⟨.String (String.mk value), String.mk value, line⟩, rest, line)
    | c =>
      if c.isDigit then
        let ds := cs.takeWhile Char.isDigit
        let rest := cs.dropWhile Char.isDigit
        if rest.head? == some '.' && ((rest.drop 1).head?.map Char.isDigit).getD false then
          let fs := (rest.drop 1).takeWhile Char.isDigit
          let rest2 := (rest.drop 1).dropWhile Char.isDigit
          .inl (⟨.Number (number_value (c :: ds) fs),
                 String.mk (c :: ds ++ '.' :: fs), line⟩, rest2, line)
        else
          .inl (⟨.Number (number_value (c :: ds) []), String.mk (c :: ds), line⟩, rest, line)
      else if c.isAlpha then
        let as := cs.takeWhile Char.isAlphanum
        let rest := cs.dropWhile Char.isAlphanum
        let value := String.mk (c :: as)
        .inl (⟨keyword_kind value, value, line⟩, rest, line)
      else
        next_token fuel cs line

/-- Drive the scanner to the end of input, appending the single `Eof`
token (mirrors the `Iterator` impl with its `was_eof_yielded` flag). -/
def scan_tokens : Nat → List Char → Nat → List Token
  | 0, _, line => [⟨.Eof, "", line⟩]
  | fuel + 1, src, line =>
    match next_token (src.length + 1) src line with
    | .inr finalLine => [⟨.Eof, "", finalLine⟩]
    | .inl (t, rest, line') => t :: scan_tokens fuel rest line'

/-- Scan a source string into its token list (always ends in `Eof`). -/
def scan (source : String) : List Token :=
  scan_tokens (source.length + 1) source.toList 1

end TreeWalking

namespace TreeWalking

/-- Binary operators of the AST (`enum BinaryOperator` in
`tree_walking/src/parser.rs`). -/
inductive BinaryOperator where
  | EqualEqual | BangEqual | Plus | Minus | Slash | Star
  | Greater | GreaterEqual | Less | LessEqual | Comma | Or | And
deriving DecidableEq, Repr

/-- Unary operators of the AST (`enum UnaryOperator`). -/
inductive UnaryOperator where
  | Minus | Bang
deriving DecidableEq, Repr

/-- Literal payloads (`enum Literal`); identifiers carry the
process-unique id that keys the resolver's output. -/
inductive Literal where
  | Number (value : NumV)
  | String (value : String)
  | True
  | False
  | Nil
  | Identifier (name : String) (id : Nat)
deriving DecidableEq, Repr

/-- Expressions (`enum Expr`). -/
inductive Expr where
  | Ternary (conditional true_case false_case : Expr)
  | Binary (operator : BinaryOperator) (left right : Expr)
  | Unary (operator : UnaryOperator) (expr : Expr)
  | Grouping (expr : Expr)
  | Literal (value : Literal)
  | Assignment (name : String) (expression : Expr) (id : Nat)
  | Call (function : Expr) (arguments : List Expr)
deriving Repr

/-- Statements (`enum Stmt`). -/
inductive Stmt where
  | Expression (expression : Expr)
  | Declaration (name : String) (initializer : Expr)
  | FunDeclaration (name : String) (parameters : List String) (body : List Stmt)
  | Block (statements : List Stmt)
  | While (condition : Expr) (statement : Stmt)
  | If (condition : Expr) (true_case : Stmt) (false_case : Option Stmt)
deriving Repr

/-- Syntax errors (`enum SyntaxError` in `tree_walking/src/errors.rs`). -/
inductive SyntaxError where
  | MissingSemicolon
  | VariableDeclarationMissingIdentifier
  | VariableDeclarationMissingAssignment
  | LValueMustBeAnIdentifier
  | MissingColonInTernary
  | MissingRightParen
  | UnexpectedTokenInExpression
  | MissingRightBrace
  | MissingWhileConditionLeftParen
  | WhileBodyNotEnclosedInBlock
  | MissingIfConditionLeftParen
  | IfBodyNotEnclosedInBlock
  | ElseBodyNotEnclosedInBlock
  | MissingParametersDeclarationOpeningParen
  | MissingFunctionDeclarationIdentifier
  | ExpectedParameterIdentifier
  | MissingBodyOpeningBrace
deriving DecidableEq, Repr

/-- Errors a parser routine can raise: a syntax error (caught and
recorded by `declaration`, mirroring the `downcast_ref::<SyntaxError>`
branch) or fuel exhaustion (an artifact of the embedding, never hit
with the fuel amounts used below). -/
inductive PErr where
  | Syn (e : SyntaxError)
  | OutOfFuel
deriving DecidableEq, Repr

/-- Mutable parser state (`struct Parser`): token vector, cursor,
accumulated errors, plus the id counter that Rust keeps in a
process-wide atomic (`COUNTER`, starting at 1). -/
structure PSt where
  tokens : List Token
  current : Nat
  errors : List SyntaxError
  next_id : Nat

/-- Parser monad: syntax-error exceptions over mutable parser state.
State survives a throw, as the `&mut self` methods' side effects do
(an error returns the state as mutated so far). -/
def ParserM (α : Type) : Type := PSt → Except PErr α × PSt

instance : Monad ParserM where
  pure a := fun s => (.ok a, s)
  bind m f := fun s =>
    match m s with
    | (.ok a, s) => f a s
    | (.error e, s) => (.error e, s)

instance : MonadExceptOf PErr ParserM where
  throw e := fun s => (.error e, s)
  tryCatch m handle := fun s =>
    match m s with
    | (.error e, s) => handle e s
    | r => r

instance : MonadStateOf PSt ParserM where
  get := fun s => (.ok s, s)
  set s := fun _ => (.ok ⟨⟩, s)
  modifyGet f := fun s => match f s with | (a, s) => (.ok a, s)

/-- The token under the cursor (`Parser::peek`).  The cursor never
leaves the token vector because `advance` stops at `Eof`; the
default is for totality only. -/
def peek : ParserM Token := do
  let st ← get
  return st.tokens.getD st.current ⟨.Eof, "", 1⟩

/-- The token before the cursor (`Parser::previous`). -/
def previous : ParserM Token := do
  let st ← get
  return st.tokens.getD (st.current - 1) ⟨.Eof, "", 1⟩

/-- Whether the cursor reached `Eof` (`Parser::is_at_and`, source
name kept typo and all). -/
def is_at_and : ParserM Bool := do
  return (← peek).kind == .Eof

/-- Move the cursor unless at `Eof` (`Parser::advance`). -/
def advance : ParserM Unit := do
  if !(← is_at_and) then
    modify fun st => { st with current := st.current + 1 }

/-- Consume the current token when its kind matches (`Parser::match_`). -/
def match_ (token_type : TokenType) : ParserM Bool := do
  if (← peek).kind == token_type then
    advance
    return true
  else
    return false

/-- Require and consume a token kind, else raise (`Parser::consume`). -/
def consume (token : TokenType) (err : SyntaxError) : ParserM Unit := do
  if !(← match_ token) then throw (.Syn err)

/-- Fresh AST id (`get_id`, the fetch-add on `COUNTER`). -/
def get_id : ParserM Nat := do
  let st ← get
  set { st with next_id := st.next_id + 1 }
  return st.next_id

/-- Record a syntax error (`Parser::report_error`). -/
def report_error (error : SyntaxError) : ParserM Unit :=
  modify fun st => { st with errors := st.errors ++ [error] }

/-- Loop body of `Parser::synchronize`. -/
def synchronize_loop : Nat → ParserM Unit
  | 0 => throw .OutOfFuel
  | fuel + 1 => do
    if (← is_at_and) then return
    if (← previous).kind == .Semicolon then return
    match (← peek).kind with
    | .Fun => return
    | .Var => return
    | _ =>
      advance
      synchronize_loop fuel

/-- Skip to a statement boundary after a syntax error
(`Parser::synchronize`). -/
def synchronize (fuel : Nat) : ParserM Unit := do
  advance
  synchronize_loop fuel

/-- Require a parameter name (`Parser::match_parameter_identifier`). -/
def match_parameter_id : ParserM String := do
  match (← peek).kind with
  | .Identifier identifier =>
    advance
    return identifier
  | _ => throw (.Syn .ExpectedParameterIdentifier)

mutual

/-- Parse one declaration, catching and recording syntax errors and
synchronizing, as `Parser::declaration` does via `or_else`. -/
def declaration : Nat → ParserM (Option Stmt)
  | 0 => throw .OutOfFuel
  | fuel + 1 =>
    tryCatch
      (do
        let stmt ←
          (do
            if (← match_ .Var) then variable_declaration fuel
            else if (← match_ .Fun) then function_declaration fuel
            else statement fuel)
        return some stmt)
      (fun e =>
        match e with
        | .Syn syntax_error => do
          report_error syntax_error
          synchronize fuel
          return none
        | .OutOfFuel => throw .OutOfFuel)

/-- Parse `var IDENT = expression ;` (`Parser::variable_declaration`). -/
def variable_declaration : Nat → ParserM Stmt
  | 0 => throw .OutOfFuel
  | fuel + 1 => do
    match (← peek).kind with
    | .Identifier name =>
      advance
      if !(← match_ .Eqal) then
        throw (.Syn .VariableDeclarationMissingAssignment)
      let initializer ← expression fuel
      if (← match_ .Semicolon) then
        return .Declaration name initializer
      else
        throw (.Syn .MissingSemicolon)
    | _ => throw (.Syn .VariableDeclarationMissingIdentifier)

/-- Parse `IDENT ( params? ) { body }` after `fun`
(`Parser::function_declaration`). -/
def function_declaration : Nat → ParserM Stmt
  | 0 => throw .OutOfFuel
  | fuel + 1 => do
    match (← peek).kind with
    | .Identifier name =>
      advance
      consume .LeftParen .MissingParametersDeclarationOpeningParen
      let ps ←
        (do
          if !(← match_ .RightParen) then
            let ps ← parameters fuel
            consume .RightParen .MissingParametersDeclarationOpeningParen
            return ps
          else
            return [])
      consume .LeftBrace .MissingBodyOpeningBrace
      let body ← block fuel
      return .FunDeclaration name ps body
    | _ => throw (.Syn .MissingFunctionDeclarationIdentifier)

/-- Parse a comma-separated parameter list (`Parser::parameters`). -/
def parameters : Nat → ParserM (List String)
  | 0 => throw .OutOfFuel
  | fuel + 1 => do
    let first ← match_parameter_id
    parameters_loop fuel [first]

/-- The `loop` of `Parser::parameters`. -/
def parameters_loop : Nat → List String → ParserM (List String)
  | 0, _ => throw .OutOfFuel
  | fuel + 1, acc => do
    if (← match_ .Comma) then
      let p ← match_parameter_id
      parameters_loop fuel (acc ++ [p])
    else
      return acc

/-- Parse a statement (`Parser::statement`). -/
def statement : Nat → ParserM Stmt
  | 0 => throw .OutOfFuel
  | fuel + 1 => do
    if (← match_ .LeftBrace) then
      let statements ← block fuel
      return .Block statements
    else if (← match_ .While) then
      while_ fuel
    else if (← match_ .If) then
      if_ fuel
    else
      expr_stmt fuel

/-- Parse declarations up to the closing brace (`Parser::block`). -/
def block : Nat → ParserM (List Stmt)
  | 0 => throw .OutOfFuel
  | fuel + 1 => block_loop fuel []

/-- The `while` loop of `Parser::block`. -/
def block_loop : Nat → List Stmt → ParserM (List Stmt)
  | 0, _ => throw .OutOfFuel
  | fuel + 1, acc => do
    if !((← peek).kind == .RightBrace) && !(← is_at_and) then
      match (← declaration fuel) with
      | some stmt => block_loop fuel (acc ++ [stmt])
      | none => block_loop fuel acc
    else
      if (← match_ .RightBrace) then
        return acc
      else
        throw (.Syn .MissingRightBrace)

/-- Parse a `while` statement after the keyword (`Parser::while_`). -/
def while_ : Nat → ParserM Stmt
  | 0 => throw .OutOfFuel
  | fuel + 1 => do
    consume .LeftParen .MissingWhileConditionLeftParen
    let e ← expression fuel
    consume .RightParen .MissingRightParen
    consume .LeftBrace .WhileBodyNotEnclosedInBlock
    let statements ← block fuel
    return .While e (.Block statements)

/-- Parse an `if` statement after the keyword (`Parser::if_`). -/
def if_ : Nat → ParserM Stmt
  | 0 => throw .OutOfFuel
  | fuel + 1 => do
    consume .LeftParen .MissingIfConditionLeftParen
    let condition ← expression fuel
    consume .RightParen .MissingRightParen
    consume .LeftBrace .IfBodyNotEnclosedInBlock
    let true_case ← block fuel
    let else_case ←
      (do
        if (← match_ .Else) then
          consume .LeftBrace .ElseBodyNotEnclosedInBlock
          let statements ← block fuel
          return some (Stmt.Block statements)
        else
          return none)
    return .If condition (.Block true_case) else_case

/-- Parse `expression ;` (`Parser::expr_stmt`). -/
def expr_stmt : Nat → ParserM Stmt
  | 0 => throw .OutOfFuel
  | fuel + 1 => do
    let e ← expression fuel
    if (← match_ .Semicolon) then
      return .Expression e
    else
      throw (.Syn .MissingSemicolon)

/-- Entry of the expression grammar (`Parser::expression`). -/
def expression : Nat → ParserM Expr
  | 0 => throw .OutOfFuel
  | fuel + 1 => comma fuel

/-- Comma sequencing, lowest precedence (`Parser::comma`). -/
def comma : Nat → ParserM Expr
  | 0 => throw .OutOfFuel
  | fuel + 1 => do
    let e ← assignment fuel
    comma_loop fuel e

/-- The `loop` of `Parser::comma`. -/
def comma_loop : Nat → Expr → ParserM Expr
  | 0, _ => throw .OutOfFuel
  | fuel + 1, e => do
    if (← match_ .Comma) then
      let right ← assignment fuel
      comma_loop fuel (.Binary .Comma e right)
    else
      return e

/-- Right-associative assignment; the right-hand side is parsed
before the left side's shape is checked (`Parser::assignment`). -/
def assignment : Nat → ParserM Expr
  | 0 => throw .OutOfFuel
  | fuel + 1 => do
    let l_value ← logical_or fuel
    if (← match_ .Eqal) then
      let r_value ← assignment fuel
      match l_value with
      | .Literal (.Identifier name _) =>
        let id ← get_id
        return .Assignment name r_value id
      | _ => throw (.Syn .LValueMustBeAnIdentifier)
    else
      return l_value

/-- Parse `or` chains (`Parser::logical_or`). -/
def logical_or : Nat → ParserM Expr
  | 0 => throw .OutOfFuel
  | fuel + 1 => do
    let e ← logical_and fuel
    logical_or_loop fuel e

/-- The `loop` of `Parser::logical_or`. -/
def logical_or_loop : Nat → Expr → ParserM Expr
  | 0, _ => throw .OutOfFuel
  | fuel + 1, e => do
    if (← match_ .Or) then
      let right ← logical_and fuel
      logical_or_loop fuel (.Binary .Or e right)
    else
      return e

/-- Parse `and` chains (`Parser::logical_and`). -/
def logical_and : Nat → ParserM Expr
  | 0 => throw .OutOfFuel
  | fuel + 1 => do
    let e ← ternary fuel
    logical_and_loop fuel e

/-- The `loop` of `Parser::logical_and`. -/
def logical_and_loop : Nat → Expr → ParserM Expr
  | 0, _ => throw .OutOfFuel
  | fuel + 1, e => do
    if (← match_ .And) then
      let right ← ternary fuel
      logical_and_loop fuel (.Binary .And e right)
    else
      return e

/-- Parse `cond ? a : b`, right-associative in the else branch
(`Parser::ternary`). -/
def ternary : Nat → ParserM Expr
  | 0 => throw .OutOfFuel
  | fuel + 1 => do
    let conditional ← equality fuel
    if (← match_ .Question) then
      let true_case ← equality fuel
      if (← match_ .Colon) then
        let false_case ← ternary fuel
        return .Ternary conditional true_case false_case
      else
        throw (.Syn .MissingColonInTernary)
    else
      return conditional

/-- Parse `==` / `!=` chains (`Parser::equality`). -/
def equality : Nat → ParserM Expr
  | 0 => throw .OutOfFuel
  | fuel + 1 => do
    let e ← comparison fuel
    equality_loop fuel e

/-- The `loop` of `Parser::equality`. -/
def equality_loop : Nat → Expr → ParserM Expr
  | 0, _ => throw .OutOfFuel
  | fuel + 1, e => do
    match (← peek).kind with
    | .EqualEqual =>
      advance
      let right ← comparison fuel
      equality_loop fuel (.Binary .EqualEqual e right)
    | .BangEqual =>
      advance
      let right ← comparison fuel
      equality_loop fuel (.Binary .BangEqual e right)
    | _ => return e

/-- Parse comparison chains (`Parser::comparison`). -/
def comparison : Nat → ParserM Expr
  | 0 => throw .OutOfFuel
  | fuel + 1 => do
    let e ← term fuel
    comparison_loop fuel e

/-- The `loop` of `Parser::comparison`. -/
def comparison_loop : Nat → Expr → ParserM Expr
  | 0, _ => throw .OutOfFuel
  | fuel + 1, e => do
    if (← match_ .Less) then
      let right ← term fuel
      comparison_loop fuel (.Binary .Less e right)
    else if (← match_ .LessEqual) then
      let right ← term fuel
      comparison_loop fuel (.Binary .LessEqual e right)
    else if (← match_ .Greater) then
      let right ← term fuel
      comparison_loop fuel (.Binary .Greater e right)
    else if (← match_ .GreaterEqual) then
      let right ← term fuel
      comparison_loop fuel (.Binary .GreaterEqual e right)
    else
      return e

/-- Parse `+` / `-` chains (`Parser::term`). -/
def term : Nat → ParserM Expr
  | 0 => throw .OutOfFuel
  | fuel + 1 => do
    let e ← factor fuel
    term_loop fuel e

/-- The `loop` of `Parser::term`. -/
def term_loop : Nat → Expr → ParserM Expr
  | 0, _ => throw .OutOfFuel
  | fuel + 1, e => do
    if (← match_ .Plus) then
      let right ← factor fuel
      term_loop fuel (.Binary .Plus e right)
    else if (← match_ .Minus) then
      let right ← factor fuel
      term_loop fuel (.Binary .Minus e right)
    else
      return e

/-- Parse `*` / `/` chains (`Parser::factor`). -/
def factor : Nat → ParserM Expr
  | 0 => throw .OutOfFuel
  | fuel + 1 => do
    let e ← unary fuel
    factor_loop fuel e

/-- The `loop` of `Parser::factor`. -/
def factor_loop : Nat → Expr → ParserM Expr
  | 0, _ => throw .OutOfFuel
  | fuel + 1, e => do
    if (← match_ .Star) then
      let right ← unary fuel
      factor_loop fuel (.Binary .Star e right)
    else if (← match_ .Slash) then
      let right ← unary fuel
      factor_loop fuel (.Binary .Slash e right)
    else
      return e

/-- Parse prefix `!` / `-` (`Parser::unary`). -/
def unary : Nat → ParserM Expr
  | 0 => throw .OutOfFuel
  | fuel + 1 => do
    if (← match_ .Bang) then
      let e ← unary fuel
      return .Unary .Bang e
    else if (← match_ .Minus) then
      let e ← unary fuel
      return .Unary .Minus e
    else
      primary fuel

/-- Parse a primary expression followed by call chains
(`Parser::primary`). -/
def primary : Nat → ParserM Expr
  | 0 => throw .OutOfFuel
  | fuel + 1 => do
    let t ← peek
    let prim ←
      (match t.kind with
       | .Number value => do
         advance
         pure (Expr.Literal (.Number value))
       | .String value => do
         advance
         pure (Expr.Literal (.String value))
       | .True => do
         advance
         pure (Expr.Literal .True)
       | .False => do
         advance
         pure (Expr.Literal .False)
       | .Nil => do
         advance
         pure (Expr.Literal .Nil)
       | .Identifier value => do
         advance
         let id ← get_id
         pure (Expr.Literal (.Identifier value id))
       | .LeftParen => do
         advance
         let e ← expression fuel
         if (← match_ .RightParen) then
           pure (Expr.Grouping e)
         else
           throw (.Syn .MissingRightParen)
       | _ => throw (.Syn .UnexpectedTokenInExpression))
    primary_loop fuel prim

/-- The call-chaining `loop` of `Parser::primary`. -/
def primary_loop : Nat → Expr → ParserM Expr
  | 0, _ => throw .OutOfFuel
  | fuel + 1, prim => do
    if (← match_ .LeftParen) then
      let arguments ← finish_call fuel
      primary_loop fuel (.Call prim arguments)
    else
      return prim

/-- Parse a call's argument list (`Parser::finish_call`). -/
def finish_call : Nat → ParserM (List Expr)
  | 0 => throw .OutOfFuel
  | fuel + 1 => do
    if (← match_ .RightParen) then
      return []
    else
      finish_call_loop fuel []

/-- The `loop` of `Parser::finish_call`. -/
def finish_call_loop : Nat → List Expr → ParserM (List Expr)
  | 0, _ => throw .OutOfFuel
  | fuel + 1, acc => do
    let a ← assignment fuel
    let acc := acc ++ [a]
    if !(← match_ .Comma) then
      consume .RightParen .MissingRightParen
      return acc
    else
      finish_call_loop fuel acc

end

/-- The `while` loop of `Parser::parse`. -/
def parse_loop : Nat → List Stmt → ParserM (List Stmt)
  | 0, _ => throw .OutOfFuel
  | fuel + 1, acc => do
    if !(← is_at_and) then
      match (← declaration fuel) with
      | some stmt => parse_loop fuel (acc ++ [stmt])
      | none => parse_loop fuel acc
    else
      return acc

/-- Parse a whole program (`Parser::parse`): collect declarations,
and return an empty program when any syntax error was recorded
(the errors go to the diagnostics side channel). -/
def parse (fuel : Nat) : ParserM (List Stmt) := do
  let statements ← parse_loop fuel []
  let st ← get
  if !st.errors.isEmpty then
    return []
  else
    return statements

/-- Run the parser on a token list from a fresh `Parser::new` state
(id counter at 1), with fuel amply covering the inputs used here. -/
def parse_program (tokens : List Token) : Except PErr (List Stmt) × PSt :=
  parse 10000 ⟨tokens, 0, [], 1⟩

end TreeWalking

namespace TreeWalking

/-- Runtime (and resolver-panic) errors, from
`tree_walking/src/errors.rs` plus the `anyhow!("todo")` and `panic!`
sites of `interpreter.rs` / `resolver.rs`; `OutOfFuel` is the
embedding's totality marker. -/
inductive RuntimeError where
  | TypeError (expected given : String)
  | UndefinedIdentifier (name : String)
  | AssignmentToUndeclaredVariable (identifier : String)
  | Todo
  | Panic (msg : String)
  | OutOfFuel
deriving DecidableEq, Repr

/-- Resolver output (`type Locals = HashMap<usize, usize>`): map from
expression id to lexical distance, as an association list. -/
def Locals : Type := List (Nat × Nat)

/-- One lexical scope of the resolver
(`type Scope = HashMap<String, bool>`): name to defined-flag
(`false` = declared only).  Insertion prepends; lookup takes the
first match, which is observationally the `HashMap` behaviour. -/
def Scope : Type := List (String × Bool)

namespace Resolver

/-- Resolver state (`struct Resolver`): scope stack (head = innermost,
the `Vec`'s last) and accumulated locals. -/
structure RSt where
  scopes : List Scope
  locals : List (Nat × Nat)

/-- Mark a name declared-but-uninitialised in the innermost scope
(`Resolver::declare`; no-op on an empty stack as in the source). -/
def declare (st : RSt) (name : String) : RSt :=
  match st.scopes with
  | [] => st
  | scope :: rest => { st with scopes := ((name, false) :: scope) :: rest }

/-- Mark a name defined in the innermost scope (`Resolver::define`). -/
def define (st : RSt) (name : String) : RSt :=
  match st.scopes with
  | [] => st
  | scope :: rest => { st with scopes := ((name, true) :: scope) :: rest }

/-- Push a fresh scope (`Resolver::begin_scope`). -/
def begin_scope (st : RSt) : RSt :=
  { st with scopes := ([] : Scope) :: st.scopes }

/-- Pop the innermost scope (`Resolver::end_scope`). -/
def end_scope (st : RSt) : RSt :=
  { st with scopes := st.scopes.tail }

/-- Distance from the innermost scope to the first scope where `name`
is `DEFINED` (the indexed reverse scan in `Resolver::resolve_local`). -/
def find_distance : List Scope → String → Option Nat
  | [], _ => none
  | scope :: rest, name =>
    if scope.lookup name == some true then some 0
    else (find_distance rest name).map (· + 1)

/-- Record the distance for an identifier use, or panic when no scope
defines the name (`Resolver::resolve_local`; its debug `println!`
goes to the diagnostics side channel and is not modelled). -/
def resolve_local (st : RSt) (name : String) (expr_id : Nat) : Except RuntimeError RSt :=
  match find_distance st.scopes name with
  | some distance => .ok { st with locals := st.locals ++ [(expr_id, distance)] }
  | none => .error (.Panic ("variable " ++ name ++ " must be defined before it is used"))

end Resolver

mutual

/-- Structural walk over an expression (`Resolver::resolve_expr`).
In the `Literal::Identifier` branch the source's check for a name
referenced inside its own initializer (`Some(&false) == scope.get`)
has an empty body — a bare `// TODO: report error` comment — so no
error is raised there and resolution proceeds to `resolve_local`. -/
def resolve_expr : Nat → Resolver.RSt → Expr → Except RuntimeError Resolver.RSt
  | 0, _, _ => .error .OutOfFuel
  | fuel + 1, st, expr =>
    match expr with
    | .Ternary conditional true_case false_case => do
      let st ← resolve_expr fuel st conditional
      let st ← resolve_expr fuel st true_case
      resolve_expr fuel st false_case
    | .Binary _ left right => do
      let st ← resolve_expr fuel st left
      resolve_expr fuel st right
    | .Unary _ e => resolve_expr fuel st e
    | .Grouping e => resolve_expr fuel st e
    | .Literal value =>
      match value with
      | .Identifier name id => Resolver.resolve_local st name id
      | _ => .ok st
    | .Assignment name e id => do
      let st ← resolve_expr fuel st e
      Resolver.resolve_local st name id
    | .Call function arguments => do
      let st ← resolve_expr fuel st function
      resolve_exprs fuel st arguments

/-- Resolve a list of expressions in order (the argument loop of
`Resolver::resolve_expr`'s `Call` arm). -/
def resolve_exprs : Nat → Resolver.RSt → List Expr → Except RuntimeError Resolver.RSt
  | 0, _, _ => .error .OutOfFuel
  | _ + 1, st, [] => .ok st
  | fuel + 1, st, e :: rest => do
    let st ← resolve_expr fuel st e
    resolve_exprs fuel st rest

/-- Structural walk over a statement (`Resolver::resolve_stmt`). -/
def resolve_stmt : Nat → Resolver.RSt → Stmt → Except RuntimeError Resolver.RSt
  | 0, _, _ => .error .OutOfFuel
  | fuel + 1, st, stmt =>
    match stmt with
    | .Expression e => resolve_expr fuel st e
    | .Declaration name initializer => do
      let st := Resolver.declare st name
      let st ← resolve_expr fuel st initializer
      .ok (Resolver.define st name)
    | .FunDeclaration name parameters body => do
      let st := Resolver.declare st name
      let st := Resolver.define st name
      let st := Resolver.begin_scope st
      let st := parameters.foldl (fun st p => Resolver.define (Resolver.declare st p) p) st
      let st ← resolve_stmts fuel st body
      .ok (Resolver.end_scope st)
    | .Block statements => do
      let st := Resolver.begin_scope st
      let st ← resolve_stmts fuel st statements
      .ok (Resolver.end_scope st)
    | .While condition statement => do
      let st ← resolve_expr fuel st condition
      resolve_stmt fuel st statement
    | .If condition true_case false_case => do
      let st ← resolve_expr fuel st condition
      let st ← resolve_stmt fuel st true_case
      match false_case with
      | some s => resolve_stmt fuel st s
      | none => .ok st

/-- Resolve a list of statements in order (the body loops of
`resolve_stmt` and `resolve_program`). -/
def resolve_stmts : Nat → Resolver.RSt → List Stmt → Except RuntimeError Resolver.RSt
  | 0, _, _ => .error .OutOfFuel
  | _ + 1, st, [] => .ok st
  | fuel + 1, st, s :: rest => do
    let st ← resolve_stmt fuel st s
    resolve_stmts fuel st rest

end

/-- Resolve a program from `Resolver::new`'s initial scope stack: a
sentinel bottom scope holding the natives below an empty top-level
scope (`Resolver::resolve_program`). -/
def resolve_program (fuel : Nat) (program : List Stmt) : Except RuntimeError Locals := do
  let st0 : Resolver.RSt :=
    ⟨[([] : Scope), [("println", true), ("clock", true)]], []⟩
  let st ← resolve_stmts fuel st0 program
  .ok st.locals

end TreeWalking

namespace TreeWalking

/-- Runtime values (`enum Value` in `tree_walking/src/interpreter.rs`).
The source's single `Function(Box<dyn Callable>)` variant boxes one of
three callables — `NativeClock`, `NativePrintln`, `Fun` — which are
inlined here as three constructors.  A `Fun` owns its parameters,
body, name, and the handle (`Rc<RefCell<Environment>>`) on the one
environment frame built for it at declaration time, modelled as a
store index. -/
inductive Value where
  | Number (v : NumV)
  | String (v : String)
  | Bool (v : Bool)
  | Nil
  | NativeClock
  | NativePrintln
  | Fun (parameters : List String) (body : List Stmt) (name : String) (environment : Nat)
deriving Repr

/-- Whether a value is (one of the three forms of) `Value::Function`. -/
def is_function : Value → Bool
  | .NativeClock => true
  | .NativePrintln => true
  | .Fun _ _ _ _ => true
  | _ => false

/-- Name of a value's type for error messages
(`Value::type_as_string`). -/
def type_as_string : Value → String
  | .Bool _ => "bool"
  | .Number _ => "number"
  | .String _ => "string"
  | .Nil => "nil"
  | _ => "function"

/-- Tree-walker truthiness (`Value::is_truthy`): only a `Bool` is
inspected; every other value — `Nil` included — is truthy. -/
def is_truthy : Value → Bool
  | .Bool inner => inner
  | _ => true

/-- Equality test (`Value::is_equal`): only same-type primitive pairs
compare; every other pair is the `anyhow!("todo")` runtime error. -/
def is_equal : Value → Value → Except RuntimeError Bool
  | .Bool v1, .Bool v2 => .ok (v1 == v2)
  | .Number v1, .Number v2 => .ok (v1.beq v2)
  | .String v1, .String v2 => .ok (v1 == v2)
  | _, _ => .error .Todo

/-- Greater-than test (`Value::is_greater_than`; defined in the
source but the interpreter's comparison arms match inline). -/
def is_greater_than : Value → Value → Except RuntimeError Bool
  | .Number v1, .Number v2 => .ok (v2.blt v1)
  | _, _ => .error .Todo

/-- Less-than test (`Value::is_lesser_than`; likewise unused by the
interpreter's inline arms). -/
def is_lesser_than : Value → Value → Except RuntimeError Bool
  | .Number v1, .Number v2 => .ok (v1.blt v2)
  | _, _ => .error .Todo

/-- Conversion to text (the `Display` impl for `Value`). -/
def display : Value → String
  | .Number v => v.display
  | .String v => v
  | .Bool v => toString v
  | .Nil => "nil"
  | _ => "function"

/-- An environment frame (`struct Environment`): binding table plus
optional parent handle, the `Rc<RefCell<_>>` handles being store
indices.  Insertion prepends and lookup takes the first match,
observationally the `HashMap::insert` overwrite. -/
structure Frame where
  values : List (String × Value)
  parent : Option Nat

/-- Interpreter state: the store of environment frames (modelling the
shared mutable `Rc<RefCell<Environment>>` graph), the text printed by
`println`, and the clock reading returned by `clock` (the host time
is abstracted as an unchanging state component). -/
structure InterpState where
  frames : List Frame
  output : List String
  now : NumV

/-- Read a frame from the store.  Frame indices are only created by
`new_env`, so they are always in range; the default is for totality. -/
def InterpState.frame (st : InterpState) (env : Nat) : Frame :=
  st.frames.getD env ⟨[], none⟩

/-- Write back a frame (a `RefCell` borrow_mut ending). -/
def InterpState.set_frame (st : InterpState) (env : Nat) (f : Frame) : InterpState :=
  { st with frames := st.frames.set env f }

/-- Allocate a frame (`Environment::new(parent)` behind a fresh
`Rc<RefCell<_>>`), returning its store index. -/
def InterpState.new_env (st : InterpState) (parent : Option Nat) : InterpState × Nat :=
  ({ st with frames := st.frames ++ [⟨[], parent⟩] }, st.frames.length)

/-- Walk `distance` parent links (`Environment::execute_at` /
`execute_at_mut`), panicking as the source does when a parent is
missing. -/
def execute_at (st : InterpState) : Nat → Nat → Except RuntimeError Nat
  | env, 0 => .ok env
  | env, distance + 1 =>
    match (st.frame env).parent with
    | none => .error (.Panic "cant find a parent env")
    | some parent => execute_at st parent distance

/-- Insert into the current frame, overwriting (`Environment::define`). -/
def env_define (st : InterpState) (env : Nat) (identifier : String) (value : Value) :
    InterpState :=
  st.set_frame env { st.frame env with values := (identifier, value) :: (st.frame env).values }

/-- Read a name at a distance (`Environment::get`); `none` when the
frame reached does not bind the name. -/
def env_get (st : InterpState) (env : Nat) (identifier : String) (distance : Nat) :
    Except RuntimeError (Option Value) :=
  (execute_at st env distance).map fun f => (st.frame f).values.lookup identifier

/-- Overwrite a name at a distance and hand the value back
(`Environment::assign`). -/
def env_assign (st : InterpState) (env : Nat) (identifier : String) (value : Value)
    (distance : Nat) : Except RuntimeError (InterpState × Value) :=
  (execute_at st env distance).map fun f =>
    (st.set_frame f { st.frame f with values := (identifier, value) :: (st.frame f).values },
     value)

/-- Bind each parameter to its argument in the function's stored
environment frame (the `for (index, param)` loop of `Fun::call`). -/
def define_parameters (st : InterpState) (environment : Nat) :
    List String → List Value → InterpState
  | [], _ => st
  | _, [] => st
  | p :: ps, v :: vs => define_parameters (env_define st environment p v) environment ps vs

end TreeWalking

namespace TreeWalking

mutual

/-- Evaluate an expression (`Interpreter::interpret_expr`), arm for
arm in the source's match order: unary, short-circuiting `and` and
`or`, the remaining binary operators (where the `Slash` arm computes
`v1.0 + v2.0`, exactly as the source does), ternary, grouping,
literals, assignment, and calls. -/
def interpret_expr : Nat → Locals → InterpState → Nat → Expr →
    Except RuntimeError (InterpState × Value)
  | 0, _, _, _, _ => .error .OutOfFuel
  | fuel + 1, locals, st, environment, expr =>
    match expr with
    | .Unary operator e => do
      let (st, value) ← interpret_expr fuel locals st environment e
      match operator with
      | .Bang =>
        match value with
        | .Bool inner => .ok (st, .Bool (!inner))
        | _ => .error (.TypeError "bool" (type_as_string value))
      | .Minus =>
        match value with
        | .Number inner => .ok (st, .Number inner.neg)
        | _ => .error (.TypeError "number" (type_as_string value))
    | .Binary .And left right => do
      let (st, left_value) ← interpret_expr fuel locals st environment left
      if is_truthy left_value then do
        let (st, right_value) ← interpret_expr fuel locals st environment right
        if is_truthy right_value then
          .ok (st, right_value)
        else
          .ok (st, .Bool false)
      else
        .ok (st, .Bool false)
    | .Binary .Or left right => do
      let (st, left_value) ← interpret_expr fuel locals st environment left
      if is_truthy left_value then
        .ok (st, left_value)
      else do
        let (st, right_value) ← interpret_expr fuel locals st environment right
        if is_truthy right_value then
          .ok (st, right_value)
        else
          .ok (st, .Bool false)
    | .Binary operator left right => do
      let (st, left_value) ← interpret_expr fuel locals st environment left
      let (st, right_value) ← interpret_expr fuel locals st environment right
      match operator with
      | .BangEqual => do
        let b ← is_equal left_value right_value
        .ok (st, .Bool (!b))
      | .Comma => .ok (st, right_value)
      | .EqualEqual => do
        let b ← is_equal left_value right_value
        .ok (st, .Bool b)
      | .Plus =>
        match left_value, right_value with
        | .Number v1, .Number v2 => .ok (st, .Number (v1.add v2))
        | _, _ => .error .Todo
      | .Minus =>
        match left_value, right_value with
        | .Number v1, .Number v2 => .ok (st, .Number (v1.sub v2))
        | _, _ => .error .Todo
      | .Star =>
        match left_value, right_value with
        | .Number v1, .Number v2 => .ok (st, .Number (v1.mul v2))
        | _, _ => .error .Todo
      | .Slash =>
        match left_value, right_value with
        | .Number v1, .Number v2 => .ok (st, .Number (v1.add v2))
        | _, _ => .error .Todo
      | .Less =>
        match left_value, right_value with
        | .Number v1, .Number v2 => .ok (st, .Bool (v1.blt v2))
        | _, _ => .error .Todo
      | .Greater =>
        match left_value, right_value with
        | .Number v1, .Number v2 => .ok (st, .Bool (v2.blt v1))
        | _, _ => .error .Todo
      | .GreaterEqual =>
        match left_value, right_value with
        | .Number v1, .Number v2 => .ok (st, .Bool (v2.ble v1))
        | _, _ => .error .Todo
      | .LessEqual =>
        match left_value, right_value with
        | .Number v1, .Number v2 => .ok (st, .Bool (v1.ble v2))
        | _, _ => .error .Todo
      | _ => .error .Todo
    | .Ternary conditional true_case false_case => do
      let (st, conditional_value) ← interpret_expr fuel locals st environment conditional
      if is_truthy conditional_value then
        interpret_expr fuel locals st environment true_case
      else
        interpret_expr fuel locals st environment false_case
    | .Grouping e => interpret_expr fuel locals st environment e
    | .Literal value =>
      match value with
      | .True => .ok (st, .Bool true)
      | .False => .ok (st, .Bool false)
      | .Number v => .ok (st, .Number v)
      | .String v => .ok (st, .String v)
      | .Nil => .ok (st, .Nil)
      | .Identifier name id =>
        match List.lookup id locals with
        | none => .error (.Panic "locals.get(id).unwrap()")
        | some distance => do
          match ← env_get st environment name distance with
          | some v => .ok (st, v)
          | none => .error (.UndefinedIdentifier name)
    | .Assignment name e id => do
      let (st, value) ← interpret_expr fuel locals st environment e
      match List.lookup id locals with
      | none => .error (.Panic "locals.get(id).unwrap()")
      | some distance => env_assign st environment name value distance
    | .Call function arguments => do
      let (st, function_value) ← interpret_expr fuel locals st environment function
      match function_value with
      | .Number _ => .error (.Panic "err")
      | .String _ => .error (.Panic "err")
      | .Bool _ => .error (.Panic "err")
      | .Nil => .error (.Panic "err")
      | callable => do
        let (st, eval_arguments) ← interpret_args fuel locals st environment arguments
        call_callable fuel locals st callable eval_arguments
termination_by structural fuel _ _ _ _ => fuel

/-- Evaluate call arguments left to right (the `for arg in arguments`
loop of the `Call` arm). -/
def interpret_args : Nat → Locals → InterpState → Nat → List Expr →
    Except RuntimeError (InterpState × List Value)
  | 0, _, _, _, _ => .error .OutOfFuel
  | _ + 1, _, st, _, [] => .ok (st, [])
  | fuel + 1, locals, st, environment, arg :: rest => do
    let (st, v) ← interpret_expr fuel locals st environment arg
    let (st, vs) ← interpret_args fuel locals st environment rest
    .ok (st, v :: vs)
termination_by structural fuel _ _ _ _ => fuel

/-- Invoke a callable (`Callable::call` for the three impls).
`NativeClock` returns the abstracted host time; `NativePrintln` joins
the displayed arguments with single spaces and appends the line to
the output; `Fun::call` panics on an arity mismatch, binds the
parameters in the function's stored environment frame, runs the body
there, and returns `Nil`.  The catch-all is unreachable: the `Call`
arm only passes function values. -/
def call_callable : Nat → Locals → InterpState → Value → List Value →
    Except RuntimeError (InterpState × Value)
  | 0, _, _, _, _ => .error .OutOfFuel
  | fuel + 1, locals, st, callee, arguments =>
    match callee with
    | .NativeClock => .ok (st, .Number st.now)
    | .NativePrintln =>
      .ok ({ st with
             output := st.output ++ [String.intercalate " " (arguments.map display)] },
           .Nil)
    | .Fun parameters body _ environment =>
      if arguments.length ≠ parameters.length then
        .error (.Panic "aaaaaa")
      else
        let st := define_parameters st environment parameters arguments
        match interpret_stmts fuel locals st environment body with
        | .error e => .error e
        | .ok st => .ok (st, .Nil)
    | _ => .error (.Panic "not a callable")
termination_by structural fuel _ _ _ _ => fuel

/-- Execute a statement (`Interpreter::interpret_stmt`). -/
def interpret_stmt : Nat → Locals → InterpState → Nat → Stmt →
    Except RuntimeError InterpState
  | 0, _, _, _, _ => .error .OutOfFuel
  | fuel + 1, locals, st, environment, stmt =>
    match stmt with
    | .Block statements =>
      let (st, block_environment) := st.new_env (some environment)
      interpret_stmts fuel locals st block_environment statements
    | .Expression e => do
      let (st, _) ← interpret_expr fuel locals st environment e
      .ok st
    | .Declaration name initializer => do
      let (st, value) ← interpret_expr fuel locals st environment initializer
      .ok (env_define st environment name value)
    | .FunDeclaration name parameters body =>
      let (st, fun_environment) := st.new_env (some environment)
      .ok (env_define st environment name (.Fun parameters body name fun_environment))
    | .While condition statement =>
      interpret_while fuel locals st environment condition statement
    | .If condition true_case false_case => do
      let (st, c) ← interpret_expr fuel locals st environment condition
      if is_truthy c then
        interpret_stmt fuel locals st environment true_case
      else
        match false_case with
        | some s => interpret_stmt fuel locals st environment s
        | none => .ok st
termination_by structural fuel _ _ _ _ => fuel

/-- The `while` loop of `interpret_stmt`. -/
def interpret_while : Nat → Locals → InterpState → Nat → Expr → Stmt →
    Except RuntimeError InterpState
  | 0, _, _, _, _, _ => .error .OutOfFuel
  | fuel + 1, locals, st, environment, condition, statement => do
    let (st, c) ← interpret_expr fuel locals st environment condition
    if is_truthy c then do
      let st ← interpret_stmt fuel locals st environment statement
      interpret_while fuel locals st environment condition statement
    else
      .ok st
termination_by structural fuel _ _ _ _ _ => fuel

/-- Execute statements in order (the statement loops of `Fun::call`,
`interpret_stmt`'s `Block` arm and `interpret_program`). -/
def interpret_stmts : Nat → Locals → InterpState → Nat → List Stmt →
    Except RuntimeError InterpState
  | 0, _, _, _, _ => .error .OutOfFuel
  | _ + 1, _, st, _, [] => .ok st
  | fuel + 1, locals, st, environment, s :: rest => do
    let st ← interpret_stmt fuel locals st environment s
    interpret_stmts fuel locals st environment rest
termination_by structural fuel _ _ _ _ => fuel

end

/-- Run a program (`Interpreter::interpret_program`): build the
global frame holding the natives, a top frame under it, and execute
the statements there. -/
def interpret_program (fuel : Nat) (locals : Locals) (program : List Stmt) :
    Except RuntimeError InterpState :=
  let st0 : InterpState := ⟨[], [], ⟨0, 1⟩⟩
  let (st, global) := st0.new_env none
  let st := env_define st global "clock" .NativeClock
  let st := env_define st global "println" .NativePrintln
  let (st, top) := st.new_env (some global)
  interpret_stmts fuel locals st top program

/-- The whole pipeline of `tree_walking/src/runner.rs`: scan, parse,
resolve, interpret; the observable result is the `println` output.
The runner discards the interpreter's `Result`; every program
examined below runs without a runtime error, so propagating errors
here is equivalent. -/
def run (fuel : Nat) (source : String) : Except RuntimeError (List String) :=
  let tokens := scan source
  match parse_program tokens with
  | (.error _, _) => .error .OutOfFuel
  | (.ok statements, _) =>
    match resolve_program fuel statements with
    | .error e => .error e
    | .ok locals =>
      match interpret_program fuel locals statements with
      | .error e => .error e
      | .ok st => .ok st.output

end TreeWalking

namespace Vm

open TreeWalking (Token TokenType)

/-- Opcodes of the bytecode branch (`enum Opcode` in `vm/src/chunk.rs`). -/
inductive Opcode where
  | Return
  | Constant (index : Nat)
  | Not
  | True
  | False
  | Nil
  | Equal
  | Greater
  | Less
  | Negate
  | Add
  | Multiply
  | Subtract
  | Divide
deriving DecidableEq, Repr

/-- Runtime values of the VM (`enum Value` in `vm/src/chunk.rs`);
no function values exist in this branch. -/
inductive Value where
  | Number (v : NumV)
  | String (v : String)
  | Bool (v : Bool)
  | Nil
deriving DecidableEq, Repr

/-- VM truthiness (`Value::is_truthy` in `vm/src/chunk.rs`): `Nil`
and `Bool(false)` are falsy, everything else truthy. -/
def is_truthy : Value → Bool
  | .Nil => false
  | .Bool v => v
  | _ => true

/-- Whether a value is a `String` (the `matches!` tests in the VM's
`Add` arm). -/
def is_string : Value → Bool
  | .String _ => true
  | _ => false

/-- Conversion to text (the `Display` impl for the VM's `Value`). -/
def display : Value → String
  | .Number v => v.display
  | .String v => v
  | .Nil => "nil"
  | .Bool v => toString v

/-- A compiled chunk (`struct Chunk`): constant pool, opcode
sequence, and per-opcode source lines. -/
structure Chunk where
  constants : List Value
  code : List Opcode
  lines : List Nat
deriving Repr

/-- The empty chunk (`Chunk::new`). -/
def Chunk.new : Chunk := ⟨[], [], []⟩

/-- Append an opcode with its line (`Chunk::push_code`). -/
def Chunk.push_code (c : Chunk) (op : Opcode) (line : Nat) : Chunk :=
  { c with code := c.code ++ [op], lines := c.lines ++ [line] }

/-- Append a constant and the `Constant` opcode indexing it
(`Chunk::push_constant`). -/
def Chunk.push_constant (c : Chunk) (value : Value) (line : Nat) : Chunk :=
  let c := { c with constants := c.constants ++ [value] }
  c.push_code (.Constant (c.constants.length - 1)) line

/-- Fetch a constant (`Chunk::get_constant`); indices emitted by
`push_constant` are always in range, the default is for totality. -/
def Chunk.get_constant (c : Chunk) (index : Nat) : Value :=
  c.constants.getD index .Nil

/-- The compiler's syntax errors (`enum SyntaxError` in
`vm/src/parser.rs`; `MissingSemicolon` is its only variant, reused
even for a missing right paren). -/
inductive VmSyntaxError where
  | MissingSemicolon
deriving DecidableEq, Repr

/-- Compiler-side failures: a raised `SyntaxError`, a `panic!` /
`unwrap` abort, or the embedding's fuel marker. -/
inductive VErr where
  | Syn (e : VmSyntaxError)
  | Panic (msg : String)
  | OutOfFuel
deriving DecidableEq, Repr

/-- Compiler state (`struct Parser` in `vm/src/parser.rs`): the
tokens the scanner has not yet yielded, the `previous`/`current`
window, the chunk being built, the (never-written) error vector, and
the placeholder lines the stub prints to standard output. -/
structure PSt where
  rest : List Token
  previous : Option Token
  current : Option Token
  chunk : Chunk
  errors : List VmSyntaxError
  printed : List String

/-- Compiler monad: panics and syntax errors over mutable parser
state (state surviving a throw, as the `&mut self` methods do). -/
def CompM (α : Type) : Type := ExceptT VErr (StateM PSt) α

instance : Monad CompM := inferInstanceAs (Monad (ExceptT VErr (StateM PSt)))

instance : MonadExceptOf VErr CompM :=
  inferInstanceAs (MonadExceptOf VErr (ExceptT VErr (StateM PSt)))

instance : MonadStateOf PSt CompM :=
  inferInstanceAs (MonadStateOf PSt (ExceptT VErr (StateM PSt)))

/-- Precedence levels (the `*_PREC` constants). -/
def NONE_PREC : Nat := 0

/-- Assignment precedence. -/
def ASSIGNMENT_PREC : Nat := NONE_PREC + 1

/-- Equality/comparison precedence. -/
def EQUALITY_PREC : Nat := ASSIGNMENT_PREC + 1

/-- Additive precedence. -/
def TERM_PREC : Nat := EQUALITY_PREC + 1

/-- Multiplicative precedence. -/
def FACTOR_PREC : Nat := TERM_PREC + 1

/-- Unary precedence. -/
def UNARY_PREC : Nat := FACTOR_PREC + 1

/-- Token precedence table (`Parser::get_precedence`). -/
def get_precedence (token_type : TokenType) : Nat :=
  match token_type with
  | .Plus => TERM_PREC
  | .Minus => TERM_PREC
  | .Star => FACTOR_PREC
  | .Slash => FACTOR_PREC
  | .EqualEqual => EQUALITY_PREC
  | .BangEqual => EQUALITY_PREC
  | .Less => EQUALITY_PREC
  | .LessEqual => EQUALITY_PREC
  | .Greater => EQUALITY_PREC
  | .GreaterEqual => EQUALITY_PREC
  | _ => NONE_PREC

/-- Shift the token window by one (`Parser::advance`; the scanner is
already materialized as a token list, and never yields `Err`). -/
def advance : CompM Unit :=
  modify fun st =>
    { st with
      previous := st.current
      current := st.rest.head?
      rest := st.rest.tail }

/-- The current token (`Parser::current`, an `unwrap`). -/
def current : CompM Token := do
  match (← get).current with
  | some t => return t
  | none => throw (.Panic "current unwrap on None")

/-- The previous token (`Parser::previous`, an `unwrap`). -/
def previous : CompM Token := do
  match (← get).previous with
  | some t => return t
  | none => throw (.Panic "previous unwrap on None")

/-- Require and consume a token kind (`Parser::consume`). -/
def consume (token_type : TokenType) (err : VmSyntaxError) : CompM Unit := do
  if (← current).kind == token_type then
    advance
  else
    throw (.Syn err)

/-- Append an opcode to the chunk under construction. -/
def emit (op : Opcode) (line : Nat) : CompM Unit :=
  modify fun st => { st with chunk := st.chunk.push_code op line }

/-- Append a constant (and its `Constant` opcode). -/
def emit_constant (value : Value) (line : Nat) : CompM Unit :=
  modify fun st => { st with chunk := st.chunk.push_constant value line }

mutual

/-- Dispatch on the previous token as a prefix (`Parser::parse_prefix`).
The arms are exactly the source's: number and string constants, the
nullary literal opcodes, `Minus` (the only token routed to
`parse_unary`), and grouping; every other token — `Bang` included —
hits the `panic!("Unexpected token for prefix")` catch-all. -/
def prefix_rule : Nat → CompM Unit
  | 0 => throw .OutOfFuel
  | fuel + 1 => do
    let token ← previous
    match token.kind with
    | .Number value => emit_constant (.Number value) token.line
    | .String value => emit_constant (.String value) token.line
    | .True => emit .True token.line
    | .False => emit .False token.line
    | .Nil => emit .Nil token.line
    | .Minus => parse_unary fuel
    | .LeftParen => do
      expression fuel
      consume .RightParen .MissingSemicolon
    | _ => throw (.Panic "Unexpected token for prefix")

/-- Dispatch on the previous token as an infix operator
(`Parser::parse_infix`): compile the right operand one level above
the operator's precedence, then emit one or two opcodes.  The outer
arm list omits `Minus` exactly as the source does. -/
def infix_rule : Nat → CompM Unit
  | 0 => throw .OutOfFuel
  | fuel + 1 => do
    let operator_token ← previous
    match operator_token.kind with
    | .Plus | .Star | .Slash | .BangEqual | .EqualEqual
    | .LessEqual | .GreaterEqual | .Less | .Greater => do
      parse_precedence fuel (get_precedence operator_token.kind + 1)
      match operator_token.kind with
      | .Plus => emit .Add operator_token.line
      | .Minus => emit .Subtract operator_token.line
      | .Star => emit .Multiply operator_token.line
      | .Slash => emit .Divide operator_token.line
      | .BangEqual => do
        emit .Equal operator_token.line
        emit .Not operator_token.line
      | .EqualEqual => emit .Equal operator_token.line
      | .LessEqual => do
        emit .Greater operator_token.line
        emit .Not operator_token.line
      | .GreaterEqual => do
        emit .Less operator_token.line
        emit .Not operator_token.line
      | .Less => emit .Less operator_token.line
      | .Greater => emit .Greater operator_token.line
      | _ => throw (.Panic "This will not happen, but compiler needs to be happy.")
    | _ => throw (.Panic "Unexpected token for infix operator")

/-- Core precedence climb (`Parser::parse_precedence`). -/
def parse_precedence : Nat → Nat → CompM Unit
  | 0, _ => throw .OutOfFuel
  | fuel + 1, prec => do
    advance
    prefix_rule fuel
    infix_loop fuel prec

/-- The `while` loop of `parse_precedence`. -/
def infix_loop : Nat → Nat → CompM Unit
  | 0, _ => throw .OutOfFuel
  | fuel + 1, prec => do
    if prec ≤ get_precedence (← current).kind then
      advance
      infix_rule fuel
      infix_loop fuel prec
    else
      return

/-- Expression entry point (`Parser::expression`). -/
def expression : Nat → CompM Unit
  | 0 => throw .OutOfFuel
  | fuel + 1 => parse_precedence fuel ASSIGNMENT_PREC

/-- Compile a unary operator (`Parser::parse_unary`): compile the
operand at `UNARY_PREC`, then emit for `Minus`; the `Bang` arm is the
source's stub, which only prints `PREFIX BANG` and emits nothing (and
is unreachable, since `parse_prefix` never routes `Bang` here). -/
def parse_unary : Nat → CompM Unit
  | 0 => throw .OutOfFuel
  | fuel + 1 => do
    let operator_token ← previous
    parse_precedence fuel UNARY_PREC
    match operator_token.kind with
    | .Bang =>
      modify fun st => { st with printed := st.printed ++ ["PREFIX BANG"] }
    | .Minus => emit .Negate operator_token.line
    | _ => throw (.Panic "Token is not a prefix operator.")

end

/-- Compile one expression (`Parser::parse`): prime the token window
and run `expression`. -/
def parse (fuel : Nat) : CompM Unit := do
  advance
  expression fuel

/-- Run the compiler on a token list from a fresh `Parser::new`
state, exposing the outcome and the final state (whose chunk is what
`take_chunk` would hand to the VM). -/
def parse_tokens (tokens : List Token) : Except VErr Unit × PSt :=
  ((parse 10000 : CompM Unit).run).run ⟨tokens, none, none, Chunk.new, [], []⟩

/-- VM runtime failures, after the `anyhow!` messages in `vm/src/vm.rs`. -/
inductive VmErr where
  | EmptyStack
  | ExpectedANumber
  | OnlyNumbersCanBeNegated
  | Panic (msg : String)
deriving DecidableEq, Repr

/-- The grouped `Multiply | Subtract | Divide | Less | Greater` arm of
`VM::interpret`: pop `b` requiring a number, pop `a` requiring a
number, combine per the inner opcode match (whose catch-all is the
source's `panic!("Will not happen.")`). -/
def numeric_binary (op : Opcode) (stack : List Value) : Except VmErr (List Value) :=
  match stack with
  | [] => .error .EmptyStack
  | b :: rest =>
    match b with
    | .Number bn =>
      match rest with
      | [] => .error .EmptyStack
      | a :: rest2 =>
        match a with
        | .Number an =>
          match op with
          | .Subtract => .ok (.Number (an.sub bn) :: rest2)
          | .Multiply => .ok (.Number (an.mul bn) :: rest2)
          | .Divide => .ok (.Number (an.div bn) :: rest2)
          | .Less => .ok (.Bool (an.blt bn) :: rest2)
          | .Greater => .ok (.Bool (bn.blt an) :: rest2)
          | _ => .error (.Panic "Will not happen.")
        | _ => .error .ExpectedANumber
    | _ => .error .ExpectedANumber

/-- Execute one opcode on the stack (the match arms of
`VM::interpret`; the head of the list is the top of the stack).
`Return` debug-prints and drops the popped value (popping an empty
stack prints `None` and leaves it empty); the prints themselves go to
the diagnostics side channel and are not modelled. -/
def exec_op (chunk : Chunk) (stack : List Value) (op : Opcode) : Except VmErr (List Value) :=
  match op with
  | .Return => .ok stack.tail
  | .Constant index => .ok (chunk.get_constant index :: stack)
  | .Negate =>
    match stack with
    | [] => .error (.Panic "last_mut unwrap on empty stack")
    | v :: rest =>
      match v with
      | .Number n => .ok (.Number n.neg :: rest)
      | _ => .error .OnlyNumbersCanBeNegated
  | .Multiply => numeric_binary .Multiply stack
  | .Subtract => numeric_binary .Subtract stack
  | .Divide => numeric_binary .Divide stack
  | .Less => numeric_binary .Less stack
  | .Greater => numeric_binary .Greater stack
  | .Add =>
    match stack with
    | [] => .error .EmptyStack
    | b :: rest =>
      match rest with
      | [] => .error .EmptyStack
      | a :: rest2 =>
        if is_string a || is_string b then
          .ok (.String (display a ++ display b) :: rest2)
        else
          match b with
          | .Number bn =>
            match a with
            | .Number an => .ok (.Number (an.add bn) :: rest2)
            | _ => .error .ExpectedANumber
          | _ => .error .ExpectedANumber
  | .Equal =>
    match stack with
    | [] => .error .EmptyStack
    | a :: rest =>
      match rest with
      | [] => .error .EmptyStack
      | b :: rest2 => .ok (.Bool (is_truthy a == is_truthy b) :: rest2)
  | .Not =>
    match stack with
    | [] => .error .EmptyStack
    | v :: rest => .ok (.Bool (!(is_truthy v)) :: rest)
  | .True => .ok (.Bool true :: stack)
  | .False => .ok (.Bool false :: stack)
  | .Nil => .ok (.Nil :: stack)

/-- Iterate the opcodes in order (the `for opcode in code` loop). -/
def interpret_code (chunk : Chunk) : List Opcode → List Value → Except VmErr (List Value)
  | [], stack => .ok stack
  | op :: rest, stack =>
    match exec_op chunk stack op with
    | .error e => .error e
    | .ok stack => interpret_code chunk rest stack

/-- Execute a chunk from an empty stack (`VM::interpret`), returning
the final stack (which the source debug-prints). -/
def interpret (chunk : Chunk) : Except VmErr (List Value) :=
  interpret_code chunk chunk.code []

end Vm

/-- Whether a VM value is a `Number` (the shape tested by the `let
Value::Number(_) = … else` bindings in the VM's `Add` arm). -/
def Vm.is_number : Vm.Value → Bool
  | .Number _ => true
  | _ => false

/-- A store with one empty, parentless frame: the smallest
environment in which closed expressions evaluate. -/
def empty_state : TreeWalking.InterpState := ⟨[⟨[], none⟩], [], ⟨0, 1⟩⟩

/-- A program whose output separates per-call parameter frames from
the one shared frame the source allocates at declaration time: with a
fresh frame per invocation it prints `0 1 2`, with the shared frame
every recursive activation overwrites the same `n`. -/
def src_C2 : String := "fun f(n)\x7b if (0 < n) \x7b f(n - 1); \x7d println(n); \x7d f(2);"

/-- The inner function declaration of §8 scenario 4, verbatim:
its body contains a `return` statement. -/
def src_inc : String := "fun inc()\x7b c = c + 1; return c; \x7d"

/-- A name referenced inside its own initializer in a nested scope
(the resolver's `DECLARED`-but-not-`DEFINED` situation). -/
def src_C4 : String := "\x7b var a = 1; \x7b var a = a; \x7d \x7d"

/-- The parsed statements of `src_C4` (its parse succeeds without
syntax errors, as the first conjunct of the C4 theorem states). -/
def stmts_C4 : List TreeWalking.Stmt :=
  match (TreeWalking.parse_program (TreeWalking.scan src_C4)).1 with
  | .ok s => s
  | .error _ => []

/-- A compiler state in which `parse_unary` has just been entered
with `previous = !` and the operand `1` up next, to exercise the
`Bang` arm of `parse_unary` directly (it is unreachable from
`parse_prefix`). -/
def bang_state : Vm.PSt :=
  ⟨[⟨.Eof, "", 1⟩], some ⟨.Bang, "!", 1⟩, some ⟨.Number ⟨1, 1⟩, "1", 1⟩, Vm.Chunk.new, [], []⟩

set_option maxRecDepth 40000 in
set_option maxHeartbeats 2000000 in
/-- C1: the tree-walker's `+ - * /` arms do require two `Number`
operands (third conjunct: a `bool` operand is the `anyhow!("todo")`
runtime error), but the `Slash` arm computes `v1.0 + v2.0`, so
`6 / 2` evaluates to `8` — not the floating-point quotient `3` the
claim states — and the full pipeline prints `8` for
`println(6 / 2);`. -/
theorem C1_slash_requires_numbers_but_adds :
    TreeWalking.run 400 "println(6 / 2);" = .ok ["8"]
    ∧ TreeWalking.interpret_expr 10 [] empty_state 0
        (.Binary .Slash (.Literal (.Number ⟨6, 1⟩)) (.Literal (.Number ⟨2, 1⟩)))
        = .ok (empty_state, .Number ⟨8, 1⟩)
    ∧ TreeWalking.interpret_expr 10 [] empty_state 0
        (.Binary .Slash (.Literal .True) (.Literal (.Number ⟨2, 1⟩)))
        = .error .Todo :=
  ⟨rfl, rfl, rfl⟩

set_option maxRecDepth 80000 in
set_option maxHeartbeats 8000000 in
/-- C2: running `fun f(n){ if (0 < n) { f(n - 1); } println(n); } f(2);`
through the full pipeline prints `0 0 0`: every activation of `f`
binds `n` in the single environment frame the interpreter allocated
when the declaration was executed, so the inner recursive call's
binding `n = 0` is still in place when the outer activations print.
A fresh frame per call, as the claim states, would print `0 1 2`. -/
theorem C2_successive_calls_share_parameter_frame :
    TreeWalking.run 400 src_C2 = .ok ["0", "0", "0"] :=
  rfl

set_option maxRecDepth 40000 in
set_option maxHeartbeats 4000000 in
/-- C3: the parser has no rule for `return`: parsing the verbatim
inner declaration `fun inc(){ c = c + 1; return c; }` of the claim's
program records `UnexpectedTokenInExpression` and returns the empty
program, running it prints nothing, and the program's other return
statement `return inc;` is rejected the same way.  (The claim's full
program behaves identically — two recorded errors, empty program, no
output — its end-to-end kernel evaluation is merely too large.) -/
theorem C3_return_is_a_syntax_error_and_nothing_prints :
    (TreeWalking.parse_program (TreeWalking.scan src_inc)).2.errors
      = [.UnexpectedTokenInExpression]
    ∧ (TreeWalking.parse_program (TreeWalking.scan src_inc)).1 = .ok []
    ∧ TreeWalking.run 400 src_inc = .ok []
    ∧ (TreeWalking.parse_program (TreeWalking.scan "return inc;")).2.errors
        = [.UnexpectedTokenInExpression] :=
  ⟨rfl, rfl, rfl, rfl⟩

set_option maxRecDepth 40000 in
set_option maxHeartbeats 4000000 in
/-- C4: referencing `a` inside its own initializer in a nested scope
is NOT reported: the program parses without syntax errors, the
resolver completes and maps the use (id 1) to distance 1 — the outer
`a` — because the own-initializer check in `resolve_expr` is an empty
`// TODO` branch, and execution proceeds normally. -/
theorem C4_own_initializer_use_resolves_without_error :
    (TreeWalking.parse_program (TreeWalking.scan src_C4)).2.errors = []
    ∧ TreeWalking.resolve_program 100 stmts_C4 = .ok [(1, 1)]
    ∧ TreeWalking.run 400 src_C4 = .ok [] :=
  ⟨rfl, rfl, rfl⟩

/-- C5: the lexeme of a two-character operator keeps only its first
character: scanning `!=` yields a `BangEqual` token whose lexeme is
`"!"`, not the input slice `"!="`, and likewise `<=` / `>=` keep
`"<"` / `">"` (the `Eof`-is-last-and-unique part of the claim does
hold on these streams). -/
theorem C5_two_char_operator_lexeme_is_first_char :
    TreeWalking.scan "!=" = [⟨.BangEqual, "!", 1⟩, ⟨.Eof, "", 1⟩]
    ∧ TreeWalking.scan "<= >=" =
        [⟨.LessEqual, "<", 1⟩, ⟨.GreaterEqual, ">", 1⟩, ⟨.Eof, "", 1⟩] :=
  ⟨rfl, rfl⟩

set_option maxRecDepth 20000 in
set_option maxHeartbeats 1000000 in
/-- C6: compiling a prefix `!` does not emit `Not`: `parse_prefix`
has no `Bang` arm, so compiling `!true` aborts with the
`panic!("Unexpected token for prefix")` catch-all having emitted no
opcode at all; and the `Bang` arm of `parse_unary` (unreachable from
`parse_prefix`) compiles the operand and then only prints the
placeholder `PREFIX BANG`, emitting no `Not` either. -/
theorem C6_vm_bang_prefix_panics_and_emits_no_not :
    (Vm.parse_tokens (TreeWalking.scan "!true")).1
      = .error (.Panic "Unexpected token for prefix")
    ∧ (Vm.parse_tokens (TreeWalking.scan "!true")).2.chunk.code = []
    ∧ (Vm.parse_unary 10 bang_state).1 = .ok ()
    ∧ (Vm.parse_unary 10 bang_state).2.chunk.code = [.Constant 0]
    ∧ (Vm.parse_unary 10 bang_state).2.printed = ["PREFIX BANG"] :=
  ⟨rfl, rfl, rfl, rfl, rfl⟩

/-- C7: the two backends' truthiness functions differ exactly as
claimed: the tree-walker's `is_truthy` is false only on
`Bool(false)` (so `Nil` and all numbers are truthy), while the VM's
`is_truthy` is false exactly on `Nil` and `Bool(false)`. -/
theorem C7_truthiness_differs_between_backends :
    (∀ v : TreeWalking.Value, TreeWalking.is_truthy v = false ↔ v = .Bool false)
    ∧ (∀ v : Vm.Value, Vm.is_truthy v = false ↔ (v = .Nil ∨ v = .Bool false)) := by
  constructor
  · intro v
    cases v <;> simp [TreeWalking.is_truthy]
  · intro v
    cases v <;> simp [Vm.is_truthy]

/-- C8: the VM's `Add` pops `b` then `a`; when either is a `String`
it pushes the concatenation of `a`'s text followed by `b`'s;
otherwise two `Number`s push their sum, and any other combination is
the `expected a number` runtime error. -/
theorem C8_vm_add_concatenates_strings_else_sums_numbers :
    (∀ (ch : Vm.Chunk) (a b : Vm.Value) (rest : List Vm.Value),
      (Vm.is_string a || Vm.is_string b) = true →
        Vm.exec_op ch (b :: a :: rest) .Add
          = .ok (.String (Vm.display a ++ Vm.display b) :: rest))
    ∧ (∀ (ch : Vm.Chunk) (x y : NumV) (rest : List Vm.Value),
        Vm.exec_op ch (.Number y :: .Number x :: rest) .Add
          = .ok (.Number (x.add y) :: rest))
    ∧ (∀ (ch : Vm.Chunk) (a b : Vm.Value) (rest : List Vm.Value),
        Vm.is_string a = false → Vm.is_string b = false →
        (Vm.is_number a && Vm.is_number b) = false →
        Vm.exec_op ch (b :: a :: rest) .Add = .error .ExpectedANumber) := by
  refine ⟨?_, ?_, ?_⟩
  · intro ch a b rest h
    cases a <;> cases b <;> simp_all [Vm.exec_op, Vm.is_string]
  · intro ch x y rest
    rfl
  · intro ch a b rest ha hb hn
    cases a <;> cases b <;> simp_all [Vm.exec_op, Vm.is_string, Vm.is_number]

/-- Witness for C8 at concrete inputs: `a = String "x"`, `b = Number 1`
(stack `[Number 1, String "x"]`) concatenates to `"x1"`. -/
theorem C8_vm_add_witness :
    (Vm.is_string (Vm.Value.String "x") || Vm.is_string (Vm.Value.Number ⟨1, 1⟩)) = true
    ∧ Vm.exec_op Vm.Chunk.new (.Number ⟨1, 1⟩ :: .String "x" :: []) .Add
        = .ok (.String (Vm.display (.String "x") ++ Vm.display (.Number ⟨1, 1⟩)) :: []) :=
  ⟨rfl, C8_vm_add_concatenates_strings_else_sums_numbers.1
    Vm.Chunk.new (.String "x") (.Number ⟨1, 1⟩) [] rfl⟩

/-- C9: whenever `Fun::call` returns successfully, the returned
value is `Nil`, whatever the parameters, body, arguments or state:
the source ends unconditionally in `Ok(Rc::new(Value::Nil))`, and no
statement form can deliver another result. -/
theorem C9_user_function_call_returns_nil :
    ∀ (fuel : Nat) (locals : TreeWalking.Locals) (st : TreeWalking.InterpState)
      (parameters : List String) (body : List TreeWalking.Stmt) (name : String)
      (environment : Nat) (arguments : List TreeWalking.Value)
      (st' : TreeWalking.InterpState) (v : TreeWalking.Value),
      TreeWalking.call_callable fuel locals st
          (.Fun parameters body name environment) arguments
        = .ok (st', v) → v = .Nil := by
  intro fuel locals st parameters body name environment arguments st' v h
  cases fuel with
  | zero => simp [TreeWalking.call_callable] at h
  | succ fuel =>
    simp only [TreeWalking.call_callable] at h
    split at h
    · simp at h
    · split at h
      · simp at h
      · simp only [Except.ok.injEq, Prod.mk.injEq] at h
        exact h.2.symm

/-- Witness for C9: a concrete zero-parameter, empty-body call
returns `Nil`. -/
theorem C9_user_function_call_returns_nil_witness :
    TreeWalking.call_callable 5 [] empty_state (.Fun [] [] "f" 0) []
      = .ok (empty_state, .Nil)
    ∧ TreeWalking.Value.Nil = .Nil :=
  ⟨rfl, C9_user_function_call_returns_nil 5 [] empty_state [] [] "f" 0 []
    empty_state .Nil rfl⟩

/-- C10: `is_equal` is the `anyhow!("todo")` runtime error whenever
either operand is `Nil` or a function (`Nil == Nil` included); the
only successful comparisons are `Bool/Bool`, `Number/Number` and
`String/String`; and through the evaluator's `==` / `!=` arms,
`nil == nil` and `nil != nil` are runtime errors, not booleans. -/
theorem C10_equality_errors_on_nil_or_function_operands :
    (∀ v w : TreeWalking.Value,
      (v = .Nil ∨ w = .Nil
        ∨ TreeWalking.is_function v = true ∨ TreeWalking.is_function w = true) →
      TreeWalking.is_equal v w = .error .Todo)
    ∧ (∀ b1 b2 : Bool, TreeWalking.is_equal (.Bool b1) (.Bool b2) = .ok (b1 == b2))
    ∧ (∀ x y : NumV, TreeWalking.is_equal (.Number x) (.Number y) = .ok (x.beq y))
    ∧ (∀ s t : String, TreeWalking.is_equal (.String s) (.String t) = .ok (s == t))
    ∧ TreeWalking.interpret_expr 10 [] empty_state 0
        (.Binary .EqualEqual (.Literal .Nil) (.Literal .Nil)) = .error .Todo
    ∧ TreeWalking.interpret_expr 10 [] empty_state 0
        (.Binary .BangEqual (.Literal .Nil) (.Literal .Nil)) = .error .Todo := by
  refine ⟨?_, fun b1 b2 => rfl, fun x y => rfl, fun s t => rfl, rfl, rfl⟩
  intro v w h
  cases v <;> cases w <;> simp_all [TreeWalking.is_equal, TreeWalking.is_function]

/-- Witness for C10 at the concrete pair `Nil`, `Nil`. -/
theorem C10_equality_errors_witness :
    (TreeWalking.Value.Nil = .Nil ∨ TreeWalking.Value.Nil = .Nil
      ∨ TreeWalking.is_function .Nil = true ∨ TreeWalking.is_function .Nil = true)
    ∧ TreeWalking.is_equal .Nil .Nil = .error .Todo :=
  ⟨Or.inl rfl, C10_equality_errors_on_nil_or_function_operands.1 .Nil .Nil (Or.inl rfl)⟩
